import Mathlib

/-!
Verification of the email-threading library (`EmailThreadingManager`).

The definitions below are a shallow embedding of the JavaScript class
`EmailThreadingManager`: pure string manipulation is translated to functions
on `String` and `List Char`, the Gmail provider and the script-properties
key-value store are modelled as an explicit environment (`Env`) whose calls
either return a value or raise an exception, and each method of the class
becomes a function threading a `World` (store contents plus the log of
provider send calls) through the control flow, with the source's `try`/`catch`
structure reproduced by explicit case analysis on `Except` results.
-/

namespace EmailThreading

/-- JavaScript whitespace class: the characters matched by the regex class
`\s` (and removed by `String.prototype.trim`). -/
def isJsWs (c : Char) : Bool :=
  c = ' ' || c = '\t' || c = '\n' || c = (Char.ofNat 11) || c = (Char.ofNat 12) ||
  c = '\r' || c = (Char.ofNat 0xa0) || c = (Char.ofNat 0x1680) ||
  (Char.ofNat 0x2000 ≤ c && c ≤ Char.ofNat 0x200a) ||
  c = (Char.ofNat 0x2028) || c = (Char.ofNat 0x2029) || c = (Char.ofNat 0x202f) ||
  c = (Char.ofNat 0x205f) || c = (Char.ofNat 0x3000) || c = (Char.ofNat 0xfeff)

/-- JavaScript `String.prototype.trim` on a character list. -/
def jsTrim (cs : List Char) : List Char :=
  ((cs.dropWhile isJsWs).reverse.dropWhile isJsWs).reverse

/-- JavaScript truthiness of a string-valued slot: `null`/`undefined` and the
empty string are falsy. -/
def truthy : Option String → Bool
  | some s => !(s == "")
  | none => false

/-- Does the list start with a case-insensitive `Re:` token?  This is the
shape matched by one iteration of the group in the regex `^(Re:\s*)+`. -/
def reTokHead : List Char → Bool
  | c1 :: c2 :: c3 :: _ => (c3 = ':') && (c1 = 'R' || c1 = 'r') && (c2 = 'e' || c2 = 'E')
  | _ => false

/-- After one `Re:` token has been consumed: skip the whitespace matched by
the greedy `\s*`, then consume further `Re:` tokens, as in the regex
`^(Re:\s*)+` from `formatReplySubject`. -/
def stripReGo : List Char → List Char
  | [] => []
  | c :: rest =>
    if isJsWs c then stripReGo rest
    else
      match rest with
      | c2 :: c3 :: rest2 =>
        if (c3 = ':') && (c = 'R' || c = 'r') && (c2 = 'e' || c2 = 'E') then
          stripReGo rest2
        else c :: rest
      | _ => c :: rest

/-- Model of `subject.replace(/^(Re:\s*)+/i, '')`: remove the maximal leading run of
case-insensitive `Re:` tokens, each followed by optional whitespace. -/
def stripReTokens (cs : List Char) : List Char :=
  match cs with
  | c1 :: c2 :: c3 :: rest =>
    if (c3 = ':') && (c1 = 'R' || c1 = 'r') && (c2 = 'e' || c2 = 'E') then stripReGo rest
    else cs
  | _ => cs

/-- Method `formatReplySubject` (source lines 342-346): strip leading `Re:` prefixes,
then prepend `'Re: '`. -/
def formatReplySubject (subject : String) : String :=
  let subject := String.mk (stripReTokens subject.data)
  "Re: " ++ subject

/-- Does the list start with a JavaScript whitespace character? -/
def headWs : List Char → Bool
  | [] => false
  | c :: _ => isJsWs c

theorem stripReGo_nil : stripReGo [] = [] := rfl

theorem stripReGo_one (c : Char) :
    stripReGo [c] = if isJsWs c then [] else [c] := rfl

theorem stripReGo_two (c c2 : Char) :
    stripReGo [c, c2] = if isJsWs c then stripReGo [c2] else [c, c2] := rfl

theorem stripReGo_cons3 (c c2 c3 : Char) (rest2 : List Char) :
    stripReGo (c :: c2 :: c3 :: rest2) =
      if isJsWs c then stripReGo (c2 :: c3 :: rest2)
      else if (c3 = ':') && (c = 'R' || c = 'r') && (c2 = 'e' || c2 = 'E') then
        stripReGo rest2
      else c :: c2 :: c3 :: rest2 := rfl

theorem reTokHead_cons3 (c1 c2 c3 : Char) (rest : List Char) :
    reTokHead (c1 :: c2 :: c3 :: rest) =
      ((c3 = ':') && (c1 = 'R' || c1 = 'r') && (c2 = 'e' || c2 = 'E')) := rfl

theorem stripReGo_not_reTok : (cs : List Char) → reTokHead (stripReGo cs) = false
  | [] => rfl
  | [c] => by
    rw [stripReGo_one]
    by_cases hw : isJsWs c = true
    · rw [if_pos hw]; rfl
    · rw [if_neg hw]; rfl
  | [c, c2] => by
    rw [stripReGo_two]
    by_cases hw : isJsWs c = true
    · rw [if_pos hw]; exact stripReGo_not_reTok [c2]
    · rw [if_neg hw]; rfl
  | c :: c2 :: c3 :: rest2 => by
    rw [stripReGo_cons3]
    by_cases hw : isJsWs c = true
    · rw [if_pos hw]; exact stripReGo_not_reTok (c2 :: c3 :: rest2)
    · rw [if_neg hw]
      by_cases hre : ((c3 = ':') && (c = 'R' || c = 'r') && (c2 = 'e' || c2 = 'E')) = true
      · rw [if_pos hre]; exact stripReGo_not_reTok rest2
      · rw [if_neg hre]; rw [reTokHead_cons3]; simpa using hre

theorem stripReTokens_cons3 (c1 c2 c3 : Char) (rest : List Char) :
    stripReTokens (c1 :: c2 :: c3 :: rest) =
      if (c3 = ':') && (c1 = 'R' || c1 = 'r') && (c2 = 'e' || c2 = 'E') then
        stripReGo rest
      else c1 :: c2 :: c3 :: rest := rfl

theorem stripReTokens_eq_self (cs : List Char) (h : reTokHead cs = false) :
    stripReTokens cs = cs := by
  match cs with
  | [] => rfl
  | [c] => rfl
  | [c, c2] => rfl
  | c :: c2 :: c3 :: rest =>
    rw [stripReTokens_cons3, if_neg]
    rw [reTokHead_cons3] at h
    simp [h]

theorem stripReTokens_not_reTok (cs : List Char) :
    reTokHead (stripReTokens cs) = false := by
  match cs with
  | [] => rfl
  | [c] => rfl
  | [c, c2] => rfl
  | c :: c2 :: c3 :: rest =>
    rw [stripReTokens_cons3]
    by_cases hre : ((c3 = ':') && (c = 'R' || c = 'r') && (c2 = 'e' || c2 = 'E')) = true
    · rw [if_pos hre]; exact stripReGo_not_reTok rest
    · rw [if_neg hre]; rw [reTokHead_cons3]; simpa using hre

theorem stripReGo_suffix : (cs : List Char) → stripReGo cs <:+ cs
  | [] => List.suffix_rfl
  | [c] => by
    rw [stripReGo_one]
    by_cases hw : isJsWs c = true
    · rw [if_pos hw]; exact List.nil_suffix
    · rw [if_neg hw]
  | [c, c2] => by
    rw [stripReGo_two]
    by_cases hw : isJsWs c = true
    · rw [if_pos hw]; exact (stripReGo_suffix [c2]).trans (List.suffix_cons c _)
    · rw [if_neg hw]
  | c :: c2 :: c3 :: rest2 => by
    rw [stripReGo_cons3]
    by_cases hw : isJsWs c = true
    · rw [if_pos hw]
      exact (stripReGo_suffix (c2 :: c3 :: rest2)).trans (List.suffix_cons c _)
    · rw [if_neg hw]
      by_cases hre : ((c3 = ':') && (c = 'R' || c = 'r') && (c2 = 'e' || c2 = 'E')) = true
      · rw [if_pos hre]
        refine (stripReGo_suffix rest2).trans ?_
        exact ((List.suffix_cons c3 rest2).trans (List.suffix_cons c2 _)).trans
          (List.suffix_cons c _)
      · rw [if_neg hre]

theorem stripReTokens_suffix (cs : List Char) : stripReTokens cs <:+ cs := by
  match cs with
  | [] => exact List.suffix_rfl
  | [c] => exact List.suffix_rfl
  | [c, c2] => exact List.suffix_rfl
  | c :: c2 :: c3 :: rest =>
    rw [stripReTokens_cons3]
    by_cases hre : ((c3 = ':') && (c = 'R' || c = 'r') && (c2 = 'e' || c2 = 'E')) = true
    · rw [if_pos hre]
      refine (stripReGo_suffix rest).trans ?_
      exact ((List.suffix_cons c3 rest).trans (List.suffix_cons c2 _)).trans
        (List.suffix_cons c _)
    · rw [if_neg hre]

theorem stripReGo_eq_self (r : List Char) (hw : headWs r = false)
    (ht : reTokHead r = false) : stripReGo r = r := by
  match r with
  | [] => rfl
  | [c] =>
    rw [stripReGo_one, if_neg]
    simpa [headWs] using hw
  | [c, c2] =>
    rw [stripReGo_two, if_neg]
    simpa [headWs] using hw
  | c :: c2 :: c3 :: rest =>
    have hcw : ¬ isJsWs c = true := by simpa [headWs] using hw
    rw [stripReGo_cons3, if_neg hcw, if_neg]
    rw [reTokHead_cons3] at ht
    simp [ht]

theorem data_append (s t : String) : (s ++ t).data = s.data ++ t.data := rfl

theorem formatReplySubject_data (s : String) :
    (formatReplySubject s).data = 'R' :: 'e' :: ':' :: ' ' :: stripReTokens s.data := by
  simp [formatReplySubject, data_append]

theorem stripReGo_ws (c : Char) (rest : List Char) (hw : isJsWs c = true) :
    stripReGo (c :: rest) = stripReGo rest := by
  match rest with
  | [] => rw [stripReGo_one, if_pos hw]; rfl
  | [c2] => rw [stripReGo_two, if_pos hw]
  | c2 :: c3 :: r => rw [stripReGo_cons3, if_pos hw]

/-- C5: `formatReplySubject` strips every leading repetition of a
case-insensitive `Re:` prefix (each with optional following whitespace) and
prepends exactly one `"Re: "`: the three spec examples evaluate to
`"Re: Hello"`, and in general the result is `"Re: "` followed by a suffix of
the input that does not itself start with a `Re:` token. -/
theorem formatReplySubject_normalizes :
    formatReplySubject "Re: Re: Hello" = "Re: Hello" ∧
    formatReplySubject "RE:Hello" = "Re: Hello" ∧
    formatReplySubject "Hello" = "Re: Hello" ∧
    ∀ s : String, ∃ t : List Char,
      (formatReplySubject s).data = 'R' :: 'e' :: ':' :: ' ' :: t ∧
      reTokHead t = false ∧ t <:+ s.data := by
  refine ⟨by decide, by decide, by decide, fun s => ?_⟩
  exact ⟨stripReTokens s.data, formatReplySubject_data s,
    stripReTokens_not_reTok s.data, stripReTokens_suffix s.data⟩

/-- C10 counterexample: `formatReplySubject` is not idempotent.  For the
subject `" Hello"` (leading space) one application yields `"Re:  Hello"`,
whose second application strips both spaces after the `Re:` token and yields
`"Re: Hello"`. -/
theorem formatReplySubject_not_idempotent :
    formatReplySubject (formatReplySubject " Hello") ≠ formatReplySubject " Hello" := by
  decide

/-- C10 amended: `formatReplySubject` is idempotent on every subject whose
residue after stripping the leading `Re:` tokens does not begin with a
whitespace character (in particular on every subject that does not begin with
whitespace).  When the residue begins with whitespace, the prepended
`"Re: "` merges with it and the second application strips more. -/
theorem formatReplySubject_idempotent_of_residue_not_ws (s : String)
    (h : headWs (stripReTokens s.data) = false) :
    formatReplySubject (formatReplySubject s) = formatReplySubject s := by
  have h1 : stripReTokens ('R' :: 'e' :: ':' :: ' ' :: stripReTokens s.data) =
      stripReTokens s.data := by
    rw [stripReTokens_cons3, if_pos (by decide), stripReGo_ws _ _ (by decide)]
    exact stripReGo_eq_self _ h (stripReTokens_not_reTok s.data)
  calc formatReplySubject (formatReplySubject s)
      = "Re: " ++ String.mk (stripReTokens (formatReplySubject s).data) := rfl
    _ = "Re: " ++ String.mk
          (stripReTokens ('R' :: 'e' :: ':' :: ' ' :: stripReTokens s.data)) := by
          rw [formatReplySubject_data s]
    _ = "Re: " ++ String.mk (stripReTokens s.data) := by rw [h1]
    _ = formatReplySubject s := rfl

/-- Witness for the amended C10 theorem at the concrete subject `"Hello"`. -/
theorem formatReplySubject_idempotent_witness :
    formatReplySubject (formatReplySubject "Hello") = formatReplySubject "Hello" :=
  formatReplySubject_idempotent_of_residue_not_ws "Hello" (by decide)

/-! HTML to plain text (`htmlToPlainText`, source lines 354-366). -/

mutual

/-- Global replacement of `/<[^>]*>/g` by a single space: outside a tag. -/
def stripTags : List Char → List Char
  | [] => []
  | c :: rest =>
    if c = '<' then
      if rest.contains '>' then stripTagsSkip rest else c :: rest
    else c :: stripTags rest

/-- Global replacement of `/<[^>]*>/g` by a single space: inside a tag that
is known to close; emits one space at the closing bracket. -/
def stripTagsSkip : List Char → List Char
  | [] => []
  | c :: rest => if c = '>' then ' ' :: stripTags rest else stripTagsSkip rest

end

mutual

/-- Global replacement of `/\s+/g` by a single space: outside a run. -/
def collapseWs : List Char → List Char
  | [] => []
  | c :: rest => if isJsWs c then ' ' :: collapseWsDrop rest else c :: collapseWs rest

/-- Global replacement of `/\s+/g` by a single space: dropping the rest of a
whitespace run. -/
def collapseWsDrop : List Char → List Char
  | [] => []
  | c :: rest => if isJsWs c then collapseWsDrop rest else c :: collapseWs rest

end

/-- JavaScript `String.prototype.replace` with a global literal pattern:
replaces every non-overlapping occurrence, left to right, without rescanning
the replacement. -/
def replaceAll (pat rep : List Char) : List Char → List Char
  | [] => []
  | c :: cs =>
    if pat.isPrefixOf (c :: cs) ∧ pat ≠ [] then
      rep ++ replaceAll pat rep ((c :: cs).drop pat.length)
    else c :: replaceAll pat rep cs
termination_by cs => cs.length
decreasing_by
  · simp only [List.length_drop, List.length_cons]
    have : 1 ≤ pat.length := by
      cases pat with
      | nil => simp_all
      | cons p ps => simp
    omega
  · simp

/-- Method `htmlToPlainText` (source lines 354-366): strip tags, decode five HTML
entities in the source's order, collapse whitespace runs, trim. -/
def htmlToPlainText (html : String) : String :=
  let text := stripTags html.data
  let text := replaceAll "&nbsp;".data " ".data text
  let text := replaceAll "&amp;".data "&".data text
  let text := replaceAll "&lt;".data "<".data text
  let text := replaceAll "&gt;".data ">".data text
  let text := replaceAll "&quot;".data "\"".data text
  String.mk (jsTrim (collapseWs text))

/-! Header extraction: models of the two regex matches in
`extractThreadingHeaders` (source lines 267-285). -/

/-- Case-insensitive literal match: if `cs` starts with `pat` up to ASCII
case folding, return the remainder. `pat` is given in lowercase. -/
def ciEat : List Char → List Char → Option (List Char)
  | [], cs => some cs
  | _ :: _, [] => none
  | p :: ps, c :: cs => if c.toLower = p then ciEat ps cs else none

/-- Attempt to match `/Message-ID:\s*<([^>]+)>/i` at the start of the list,
returning the captured group. The greedy `\s*` is deterministic here because
`<` is not whitespace. -/
def msgIdAt (cs : List Char) : Option (List Char) :=
  match ciEat "message-id:".data cs with
  | none => none
  | some rest =>
    match rest.dropWhile isJsWs with
    | '<' :: rest2 =>
      let capture := rest2.takeWhile (fun c => !(c = '>'))
      match rest2.dropWhile (fun c => !(c = '>')) with
      | '>' :: _ => if capture = [] then none else some capture
      | _ => none
    | _ => none

/-- Leftmost match of `/Message-ID:\s*<([^>]+)>/i`, as performed by
`rawContent.match(...)`: try each start position left to right. -/
def scanMsgId : List Char → Option (List Char)
  | [] => none
  | c :: rest =>
    match msgIdAt (c :: rest) with
    | some capture => some capture
    | none => scanMsgId rest

/-- Backtracking for `/References:\s*([^\r\n]+)/i` after the literal: the
greedy `\s*` first takes `k` whitespace characters, then `[^\r\n]+` must
match at least one character; on failure `\s*` gives back one character at a
time. -/
def refsTryAt (rest : List Char) : Nat → Option (List Char)
  | 0 =>
    match rest.head? with
    | some c => if c = '\r' || c = '\n' then none
        else some (rest.takeWhile (fun c => !(c = '\r' || c = '\n')))
    | none => none
  | k + 1 =>
    match (rest.drop (k + 1)).head? with
    | some c => if c = '\r' || c = '\n' then refsTryAt rest k
        else some ((rest.drop (k + 1)).takeWhile (fun c => !(c = '\r' || c = '\n')))
    | none => refsTryAt rest k

/-- Attempt to match `/References:\s*([^\r\n]+)/i` at the start of the
list, returning the captured group. -/
def refsAt (cs : List Char) : Option (List Char) :=
  match ciEat "references:".data cs with
  | none => none
  | some rest => refsTryAt rest ((rest.takeWhile isJsWs).length)

/-- Leftmost match of `/References:\s*([^\r\n]+)/i`. -/
def scanRefs : List Char → Option (List Char)
  | [] => none
  | c :: rest =>
    match refsAt (c :: rest) with
    | some capture => some capture
    | none => scanRefs rest

/-! Data model: external collaborators (Gmail provider, script properties
store) and the configuration object. -/

/-- Opaque exception payloads. -/
abbrev Exc := String

/-- The `recipientEmail` configuration value: the callers of the library pass
either a single address string or an array of address strings, and the class
forwards the value as-is. -/
inductive Recipient where
  | str (s : String)
  | list (l : List String)
deriving DecidableEq, Repr

deriving instance DecidableEq for Except

/-- A Gmail message object as observed by the class: each accessor either
returns a value or raises. -/
structure MessageM where
  rawContent : Except Exc String
  gmailId : Except Exc String
  msgDate : Except Exc String
deriving DecidableEq, Repr

/-- A Gmail thread object as observed by the class. -/
structure ThreadM where
  messages : Except Exc (List MessageM)
  firstMessageSubject : Except Exc String
  labels : Except Exc (List String)
deriving DecidableEq, Repr

/-- The pair extracted by `extractThreadingHeaders`. -/
structure ThreadingInfo where
  messageId : Option String
  references : Option String
deriving DecidableEq, Repr

/-- The caller-supplied `options` object (attachments are opaque to the
class and are omitted). -/
structure EmailOptions where
  plainBody : Option String := none
  cc : Option String := none
  bcc : Option String := none
deriving DecidableEq, Repr

/-- A record of one provider send call (`GmailApp.sendEmail` or
`GmailApp.createDraft` followed by `draft.send()`): the explicit positional
arguments and the options object including the threading headers. -/
structure SendRec where
  recipient : Recipient
  subject : String
  body : String
  htmlBody : String
  plainBody : Option String
  cc : Option String
  bcc : Option String
  inReplyTo : Option String
  references : Option String
deriving DecidableEq, Repr

/-- The normalized configuration held in `this.config`. -/
structure Config where
  threadIdProperty : String
  recipientEmail : Recipient
  emailSubject : String
  enableLogging : Bool
  scriptVersion : String
deriving DecidableEq, Repr

/-- The raw configuration object passed to the constructor. -/
structure ConfigInput where
  threadIdProperty : Option String
  recipientEmail : Recipient
  emailSubject : String
  enableLogging : Option Bool
  scriptVersion : Option String
deriving DecidableEq, Repr

/-- The constructor (source lines 32-42): apply the `||` defaults and the
`!== false` logging default; `recipientEmail` and `emailSubject` are stored
unchanged. -/
def makeConfig (config : ConfigInput) : Config where
  threadIdProperty :=
    if truthy config.threadIdProperty then config.threadIdProperty.getD ""
    else "emailThreadId"
  recipientEmail := config.recipientEmail
  emailSubject := config.emailSubject
  enableLogging := config.enableLogging ≠ some false
  scriptVersion :=
    if truthy config.scriptVersion then config.scriptVersion.getD "" else "2.0.0"

/-- The script-properties store contents: an association list of string keys
and string values. -/
abbrev Store := List (String × String)

/-- Value stored under a key, if any. -/
def Store.lookup : Store → String → Option String
  | [], _ => none
  | (k', v) :: rest, k => if k' = k then some v else Store.lookup rest k

/-- Remove a key (`deleteProperty`; deleting an absent key is a no-op). -/
def Store.del : Store → String → Store
  | [], _ => []
  | (k', v) :: rest, k =>
    if k' = k then Store.del rest k else (k', v) :: Store.del rest k

/-- Overwrite a key (`setProperty`). -/
def Store.set (st : Store) (k v : String) : Store := (k, v) :: Store.del st k

/-- The behaviour of the external world during one invocation: the provider
lookup and search results, whether the provider send calls raise, the
identifier of a newly created conversation and the subject read back from it
(the log template on source line 215 calls
`newThread.getFirstMessageSubject()` after the primary-key write, regardless
of the logging flag), per-key store failures, and the current timestamp.
A call that fails is modelled as raising an exception; atomically failing
store calls leave the store unchanged. -/
structure Env where
  getThreadById : String → Except Exc (Option ThreadM)
  search : String → Except Exc (List ThreadM)
  sendEmailResult : Except Exc Unit
  draftSendResult : Except Exc Unit
  newThreadIdResult : Except Exc String
  newThreadSubjectResult : Except Exc String
  getFails : String → Option Exc
  setFails : String → Option Exc
  delFails : String → Option Exc
  nowISO : String

/-- Mutable state threaded through an invocation: the store contents and the
log of provider send calls made so far. -/
structure World where
  store : Store
  sent : List SendRec
deriving DecidableEq, Repr

/-- Call `properties.getProperty(k)`: raises per `env.getFails`, otherwise reads. -/
def storeGet (env : Env) (st : Store) (k : String) : Except Exc (Option String) :=
  match env.getFails k with
  | some e => .error e
  | none => .ok (Store.lookup st k)

/-- Call `properties.setProperty(k, v)`. -/
def storeSet (env : Env) (st : Store) (k v : String) : Except Exc Store :=
  match env.setFails k with
  | some e => .error e
  | none => .ok (Store.set st k v)

/-- Call `properties.deleteProperty(k)`. -/
def storeDel (env : Env) (st : Store) (k : String) : Except Exc Store :=
  match env.delFails k with
  | some e => .error e
  | none => .ok (Store.del st k)

/-! The operations of `EmailThreadingManager`.  Logging is a no-op in the
model (the spec treats it as an external side effect whose value is never
consumed), so `this.log(...)` calls disappear except where their template
literals call the provider, which is modelled by forcing those accessors. -/

/-- Method `getThread` (source lines 231-259): direct lookup, then query-based
search, each in its own `try`; returns `null` when both fail.  Exceptions
from either attempt are caught and never propagate. -/
def getThread (env : Env) (threadId : String) : Option ThreadM :=
  match env.getThreadById threadId with
  | .ok (some thread) => some thread
  | .ok none | .error _ =>
    match env.search ("thread:" ++ threadId) with
    | .ok threads => threads.head?
    | .error _ => none

/-- Method `extractThreadingHeaders` (source lines 267-285): read
`message.getRawContent()` and apply the two regexes; any exception (including
accessing a message that does not exist, when the thread has no messages)
is caught and yields `{messageId: null, references: null}`. -/
def extractThreadingHeaders (message : Option MessageM) : ThreadingInfo :=
  match message with
  | none => ⟨none, none⟩
  | some m =>
    match m.rawContent with
    | .error _ => ⟨none, none⟩
    | .ok raw =>
      ⟨(scanMsgId raw.data).map String.mk,
       (scanRefs raw.data).map (fun cs => String.mk (jsTrim cs))⟩

/-- Method `extractMessageIdAlternative` (source lines 293-305): use
`message.getId()` and append the fixed domain; falsy id or any exception
yields `null`. -/
def extractMessageIdAlternative (message : Option MessageM) : Option String :=
  match message with
  | none => none
  | some m =>
    match m.gmailId with
    | .error _ => none
    | .ok id => if id ≠ "" then some (id ++ "@mail.gmail.com") else none

/-- Method `buildReferencesHeader` (source lines 314-334): start from the existing
references when truthy, then append the angle-bracket wrapped message id when
truthy, space-separated when a chain is already present.  The `messages`
argument is unused, as in the source. -/
def buildReferencesHeader (threadingInfo : ThreadingInfo)
    (messages : List MessageM) : String :=
  let references := if truthy threadingInfo.references
    then threadingInfo.references.getD "" else ""
  if truthy threadingInfo.messageId then
    let references := if references ≠ "" then references ++ " " else references
    references ++ "<" ++ threadingInfo.messageId.getD "" ++ ">"
  else references

/-- Method `replyToExistingThread` (source lines 99-167): resolve the thread,
extract threading metadata from the first message (with the alternative
message-id fallback), build the headers, and dispatch via
`GmailApp.sendEmail` to the configured recipient.  The whole body is inside
`try`, so every failure returns `false` with the world unchanged. -/
def replyToExistingThread (env : Env) (cfg : Config) (threadId : String)
    (htmlBody : String) (options : EmailOptions) (w : World) : Bool × World :=
  match getThread env threadId with
  | none => (false, w)
  | some thread =>
    match thread.messages with
    | .error _ => (false, w)
    | .ok msgs =>
      match thread.firstMessageSubject with
      | .error _ => (false, w)
      | .ok firstSubject =>
        let info := extractThreadingHeaders msgs.head?
        let messageId := if truthy info.messageId then info.messageId
          else extractMessageIdAlternative msgs.head?
        if truthy messageId then
          let references := buildReferencesHeader ⟨messageId, info.references⟩ msgs
          let plainBody := if !(truthy options.plainBody) && !(htmlBody == "")
            then some (htmlToPlainText htmlBody) else options.plainBody
          match env.sendEmailResult with
          | .error _ => (false, w)
          | .ok _ =>
            let sentRec : SendRec := {
              recipient := cfg.recipientEmail
              subject := formatReplySubject firstSubject
              body := plainBody.getD ""
              htmlBody := htmlBody
              plainBody := plainBody
              cc := options.cc
              bcc := options.bcc
              inReplyTo := some ("<" ++ messageId.getD "" ++ ">")
              references := some references }
            (true, { w with sent := w.sent ++ [sentRec] })
        else (false, w)

/-- Method `createNewThread` (source lines 176-223): archive an existing identifier
under the `previousThreadId_` breadcrumb, create a draft and send it, read
the new conversation identifier from the sent message, and only then persist
it under the primary key.  After that write, the log template on source line
215 still calls `newThread.getFirstMessageSubject()` inside the `try` (its
argument is evaluated even when logging is disabled), so a raise there
returns `false` with the primary key already overwritten.  The whole body is
inside `try`, so every failure returns `false` with whatever state had
already been written. -/
def createNewThread (env : Env) (cfg : Config) (htmlBody : String)
    (options : EmailOptions) (w : World) : Bool × World :=
  match storeGet env w.store cfg.threadIdProperty with
  | .error _ => (false, w)
  | .ok oldThreadId =>
    let archived : Except Exc Store :=
      if truthy oldThreadId then
        storeSet env w.store ("previousThreadId_" ++ cfg.threadIdProperty)
          (oldThreadId.getD "")
      else .ok w.store
    match archived with
    | .error _ => (false, w)
    | .ok st1 =>
      let plainBody := if !(truthy options.plainBody) && !(htmlBody == "")
        then some (htmlToPlainText htmlBody) else options.plainBody
      match env.draftSendResult with
      | .error _ => (false, { w with store := st1 })
      | .ok _ =>
        let sentRec : SendRec := {
          recipient := cfg.recipientEmail
          subject := cfg.emailSubject
          body := plainBody.getD ""
          htmlBody := htmlBody
          plainBody := plainBody
          cc := options.cc
          bcc := options.bcc
          inReplyTo := none
          references := none }
        let w2 : World := { store := st1, sent := w.sent ++ [sentRec] }
        match env.newThreadIdResult with
        | .error _ => (false, w2)
        | .ok newThreadId =>
          match storeSet env w2.store cfg.threadIdProperty newThreadId with
          | .error _ => (false, w2)
          | .ok st2 =>
            match env.newThreadSubjectResult with
            | .error _ => (false, { w2 with store := st2 })
            | .ok _ => (true, { w2 with store := st2 })

/-- Method `sendThreadedEmail` (source lines 54-89): read the stored identifier
(this read happens before the `try` block, so an exception from it
propagates), then reply to the existing thread when one is stored, falling
back to creating a new thread. -/
def sendThreadedEmail (env : Env) (cfg : Config) (htmlBody : String)
    (options : EmailOptions) (w : World) : Except Exc Bool × World :=
  match storeGet env w.store cfg.threadIdProperty with
  | .error e => (.error e, w)
  | .ok storedThreadId =>
    if truthy storedThreadId then
      let res := replyToExistingThread env cfg (storedThreadId.getD "")
        htmlBody options w
      if res.1 then (.ok true, res.2)
      else
        let res2 := createNewThread env cfg htmlBody options res.2
        (.ok res2.1, res2.2)
    else
      let res2 := createNewThread env cfg htmlBody options w
      (.ok res2.1, res2.2)

/-- Method `resetThreading` (source lines 371-385): archive the current identifier
(value and timestamp) under the `archived_` keys when present, then delete
the primary key.  There is no `try` here, so store exceptions propagate. -/
def resetThreading (env : Env) (cfg : Config) (st : Store) :
    Except Exc Unit × Store :=
  match storeGet env st cfg.threadIdProperty with
  | .error e => (.error e, st)
  | .ok oldThreadId =>
    if truthy oldThreadId then
      match storeSet env st ("archived_" ++ cfg.threadIdProperty)
          (oldThreadId.getD "") with
      | .error e => (.error e, st)
      | .ok st1 =>
        match storeSet env st1 ("archived_date_" ++ cfg.threadIdProperty)
            env.nowISO with
        | .error e => (.error e, st1)
        | .ok st2 =>
          match storeDel env st2 cfg.threadIdProperty with
          | .error e => (.error e, st2)
          | .ok st3 => (.ok (), st3)
    else
      match storeDel env st cfg.threadIdProperty with
      | .error e => (.error e, st)
      | .ok st1 => (.ok (), st1)

/-- Details of the resolved thread inside `getThreadInfo`. -/
structure ThreadDetails where
  subject : String
  messageCount : Nat
  firstMessageDate : String
  lastMessageDate : String
  labels : List String
deriving DecidableEq, Repr

/-- The `threadDetails` field: `null`, a details record, or the captured
error object. -/
inductive DetailsField where
  | nullDetails
  | filled (d : ThreadDetails)
  | captured (e : Exc)
deriving DecidableEq, Repr

/-- The object returned by `getThreadInfo`. -/
structure ThreadInfoR where
  currentThreadId : Option String
  previousThreadId : Option String
  archivedThreadId : Option String
  threadDetails : DetailsField
deriving DecidableEq, Repr

/-- Method `getThreadInfo` (source lines 391-422): read the three identifier slots
(outside any `try`, so store exceptions propagate), then, when a current
identifier exists, resolve it and collect details; exceptions while
inspecting are captured into the result. -/
def getThreadInfo (env : Env) (cfg : Config) (st : Store) :
    Except Exc ThreadInfoR :=
  match storeGet env st cfg.threadIdProperty with
  | .error e => .error e
  | .ok threadId =>
    match storeGet env st ("previousThreadId_" ++ cfg.threadIdProperty) with
    | .error e => .error e
    | .ok previousThreadId =>
      match storeGet env st ("archived_" ++ cfg.threadIdProperty) with
      | .error e => .error e
      | .ok archivedThreadId =>
        let details : DetailsField :=
          if truthy threadId then
            match getThread env (threadId.getD "") with
            | none => .nullDetails
            | some thread =>
              match thread.messages with
              | .error e => .captured e
              | .ok msgs =>
                match thread.firstMessageSubject with
                | .error e => .captured e
                | .ok subject =>
                  match msgs.head? with
                  | none => .captured "TypeError"
                  | some firstMsg =>
                    match firstMsg.msgDate with
                    | .error e => .captured e
                    | .ok firstDate =>
                      match msgs.getLast? with
                      | none => .captured "TypeError"
                      | some lastMsg =>
                        match lastMsg.msgDate with
                        | .error e => .captured e
                        | .ok lastDate =>
                          match thread.labels with
                          | .error e => .captured e
                          | .ok ls =>
                            .filled ⟨subject, msgs.length, firstDate, lastDate, ls⟩
          else .nullDetails
        .ok {
          currentThreadId := if truthy threadId then threadId else none
          previousThreadId := if truthy previousThreadId then previousThreadId else none
          archivedThreadId := if truthy archivedThreadId then archivedThreadId else none
          threadDetails := details }

/-! Lemmas about the store model. -/

theorem Store.lookup_set_self (st : Store) (k v : String) :
    Store.lookup (Store.set st k v) k = some v := by
  simp [Store.set, Store.lookup]

theorem Store.lookup_del_ne (st : Store) (k k' : String) (h : k' ≠ k) :
    Store.lookup (Store.del st k) k' = Store.lookup st k' := by
  induction st with
  | nil => rfl
  | cons p rest ih =>
    obtain ⟨a, b⟩ := p
    by_cases hak : a = k
    · subst hak
      have h1 : Store.del ((a, b) :: rest) a = Store.del rest a := by
        simp [Store.del]
      rw [h1, ih]
      have h2 : Store.lookup ((a, b) :: rest) k' = Store.lookup rest k' := by
        simp only [Store.lookup]
        rw [if_neg (fun hak' => h hak'.symm)]
      rw [h2]
    · have h1 : Store.del ((a, b) :: rest) k = (a, b) :: Store.del rest k := by
        simp [Store.del, hak]
      rw [h1]
      simp only [Store.lookup]
      rw [ih]

theorem Store.lookup_del_self (st : Store) (k : String) :
    Store.lookup (Store.del st k) k = none := by
  induction st with
  | nil => rfl
  | cons p rest ih =>
    obtain ⟨a, b⟩ := p
    by_cases hak : a = k
    · simp only [Store.del, if_pos hak, ih]
    · simp only [Store.del, if_neg hak, Store.lookup, if_neg hak, ih]

theorem Store.lookup_set_ne (st : Store) (k v k' : String) (h : k' ≠ k) :
    Store.lookup (Store.set st k v) k' = Store.lookup st k' := by
  simp only [Store.set, Store.lookup]
  rw [if_neg (fun hk => h hk.symm)]
  exact Store.lookup_del_ne st k k' h

theorem Store.del_eq_self (st : Store) (k : String)
    (h : Store.lookup st k = none) : Store.del st k = st := by
  induction st with
  | nil => rfl
  | cons p rest ih =>
    obtain ⟨a, b⟩ := p
    by_cases hak : a = k
    · rw [Store.lookup, if_pos hak] at h
      exact absurd h (by simp)
    · rw [Store.lookup, if_neg hak] at h
      rw [Store.del, if_neg hak, ih h]

/-! Lemmas about derived store keys. -/

theorem append_ne_right (p k : String) (hp : p ≠ "") : p ++ k ≠ k := by
  intro h
  have hlen : (p ++ k).data.length = k.data.length := by rw [h]
  rw [data_append, List.length_append] at hlen
  have hp0 : p.data.length = 0 := by omega
  apply hp
  cases p with
  | mk d =>
    cases d with
    | nil => rfl
    | cons c cs => simp at hp0

theorem append_ne_append_right (p q k : String)
    (h : p.data.length ≠ q.data.length) : p ++ k ≠ q ++ k := by
  intro he
  have hlen : (p ++ k).data.length = (q ++ k).data.length := by rw [he]
  rw [data_append, data_append, List.length_append, List.length_append] at hlen
  omega

theorem truthy_some_ne (v : String) (hv : v ≠ "") : truthy (some v) = true := by
  simp [truthy, hv]

theorem truthy_none : truthy none = false := rfl

/-! Shared concrete instances used by witnesses and counterexamples. -/

/-- A configuration with the constructor defaults applied. -/
def cfgBasic : Config where
  threadIdProperty := "emailThreadId"
  recipientEmail := .str "group@example.com"
  emailSubject := "Status update"
  enableLogging := true
  scriptVersion := "2.0.0"

/-- A fully reliable environment in which the provider finds no thread. -/
def envOk : Env where
  getThreadById := fun _ => .ok none
  search := fun _ => .ok []
  sendEmailResult := .ok ()
  draftSendResult := .ok ()
  newThreadIdResult := .ok "THREAD-NEW"
  newThreadSubjectResult := .ok "Status update"
  getFails := fun _ => none
  setFails := fun _ => none
  delFails := fun _ => none
  nowISO := "2026-01-01T00:00:00.000Z"

/-- An environment whose key-value store raises on every read. -/
def envBadGet : Env where
  getThreadById := fun _ => .ok none
  search := fun _ => .ok []
  sendEmailResult := .ok ()
  draftSendResult := .ok ()
  newThreadIdResult := .ok "THREAD-NEW"
  newThreadSubjectResult := .ok "Status update"
  getFails := fun _ => some "PropertiesService: read failed"
  setFails := fun _ => none
  delFails := fun _ => none
  nowISO := "2026-01-01T00:00:00.000Z"

/-! C7: the reply path never touches the key-value store. -/

/-- C7: `replyToExistingThread` never writes, overwrites or deletes any key
in the key-value store, whether it returns `true` or `false`: for every
environment, configuration, input and starting world, the store after the
call is exactly the store before it. -/
theorem replyToExistingThread_store_invariant (env : Env) (cfg : Config)
    (threadId htmlBody : String) (options : EmailOptions) (w : World) :
    ((replyToExistingThread env cfg threadId htmlBody options w).2).store
      = w.store := by
  unfold replyToExistingThread
  repeat' (first | split | dsimp only)

/-! C1: exception propagation out of `sendThreadedEmail`. -/

/-- C1 counterexample: the initial `getProperty` read in `sendThreadedEmail`
happens before the `try` block, so when the key-value store raises on that
read the exception propagates to the caller and no boolean is returned. -/
theorem sendThreadedEmail_initial_read_raises :
    (sendThreadedEmail envBadGet cfgBasic "" {} ⟨[], []⟩).1 =
      Except.error "PropertiesService: read failed" ∧
    ¬ ∃ b : Bool, (sendThreadedEmail envBadGet cfgBasic "" {} ⟨[], []⟩).1 =
      Except.ok b := by
  refine ⟨rfl, ?_⟩
  rintro ⟨b, hb⟩
  rw [(rfl : (sendThreadedEmail envBadGet cfgBasic "" {} ⟨[], []⟩).1 =
    Except.error "PropertiesService: read failed")] at hb
  exact Except.noConfusion hb

/-- C1 amended: provided the initial read of the persisted identifier does
not raise, `sendThreadedEmail` returns a boolean for every behaviour of the
mail provider and of the remaining key-value store calls (including any of
them raising), and never propagates an exception. -/
theorem sendThreadedEmail_returns_bool (env : Env) (cfg : Config)
    (htmlBody : String) (options : EmailOptions) (w : World)
    (h : env.getFails cfg.threadIdProperty = none) :
    ∃ b : Bool, (sendThreadedEmail env cfg htmlBody options w).1 =
      Except.ok b := by
  unfold sendThreadedEmail storeGet
  rw [h]
  dsimp only
  split
  · split
    · exact ⟨true, rfl⟩
    · exact ⟨_, rfl⟩
  · exact ⟨_, rfl⟩

/-- Witness for the amended C1 theorem: a concrete run in which the initial
read succeeds and a boolean is returned. -/
theorem sendThreadedEmail_returns_bool_witness :
    ∃ b : Bool, (sendThreadedEmail envOk cfgBasic "" {} ⟨[], []⟩).1 =
      Except.ok b :=
  sendThreadedEmail_returns_bool envOk cfgBasic "" {} ⟨[], []⟩ rfl

/-! C2: the destination argument of every provider send call. -/

theorem replyToExistingThread_sent (env : Env) (cfg : Config)
    (threadId htmlBody : String) (options : EmailOptions) (w : World) :
    ∃ l, (replyToExistingThread env cfg threadId htmlBody options w).2.sent
        = w.sent ++ l ∧
      ∀ r ∈ l, r.recipient = cfg.recipientEmail := by
  unfold replyToExistingThread
  repeat' (first | split | dsimp only)
  all_goals
    first
      | exact ⟨[], (List.append_nil _).symm, by simp⟩
      | (refine ⟨[_], rfl, ?_⟩
         intro r hr
         rw [List.mem_singleton] at hr
         subst hr
         rfl)

theorem createNewThread_sent (env : Env) (cfg : Config)
    (htmlBody : String) (options : EmailOptions) (w : World) :
    ∃ l, (createNewThread env cfg htmlBody options w).2.sent = w.sent ++ l ∧
      ∀ r ∈ l, r.recipient = cfg.recipientEmail := by
  unfold createNewThread
  repeat' (first | split | dsimp only)
  all_goals
    first
      | exact ⟨[], (List.append_nil _).symm, by simp⟩
      | (refine ⟨[_], rfl, ?_⟩
         intro r hr
         rw [List.mem_singleton] at hr
         subst hr
         rfl)

/-- C2 counterexample: a list-valued recipient configuration is not
normalized into one comma-joined string: the destination argument passed to
the provider send call is the list itself, not the comma-joined string the
claim asserts. -/
theorem send_destination_not_comma_joined :
    (sendThreadedEmail envOk
        (makeConfig ⟨some "k", .list ["a@x.com", "b@x.com"], "S", none, none⟩)
        "" {} ⟨[], []⟩).2.sent.map (fun r => r.recipient)
      = [Recipient.list ["a@x.com", "b@x.com"]] ∧
    Recipient.list ["a@x.com", "b@x.com"] ≠ Recipient.str "a@x.com,b@x.com" := by
  exact ⟨rfl, by decide⟩

/-- C2 amended: the explicit destination argument passed to the provider
send call (on both the reply path and the new-conversation path) equals the
configured recipient value verbatim — a list-valued configuration is passed
through as the list itself, with no comma-joining performed by the library —
regardless of the provider's behaviour, and in particular regardless of who
authored the most recent message in the conversation. -/
theorem send_destination_eq_configured_recipient (env : Env) (cfg : Config)
    (htmlBody : String) (options : EmailOptions) (w : World) :
    ∃ l, (sendThreadedEmail env cfg htmlBody options w).2.sent = w.sent ++ l ∧
      ∀ r ∈ l, r.recipient = cfg.recipientEmail := by
  unfold sendThreadedEmail storeGet
  split
  · exact ⟨[], (List.append_nil _).symm, by simp⟩
  · dsimp only
    split
    · split
      · exact replyToExistingThread_sent env cfg _ htmlBody options w
      · obtain ⟨l1, h1, h1r⟩ :=
          replyToExistingThread_sent env cfg _ htmlBody options w
        obtain ⟨l2, h2, h2r⟩ := createNewThread_sent env cfg htmlBody options
          (replyToExistingThread env cfg _ htmlBody options w).2
        refine ⟨l1 ++ l2, ?_, ?_⟩
        · rw [h2, h1, List.append_assoc]
        · intro r hr
          rcases List.mem_append.mp hr with h | h
          · exact h1r r h
          · exact h2r r h
    · exact createNewThread_sent env cfg htmlBody options w

/-! C8: the resolve operation `getThread`. -/

/-- C8: `getThread` returns the direct-lookup result when that lookup
returns a conversation; performs the fallback search exactly when the direct
lookup raises or returns nothing, returning the first search result if any;
and returns `null` when both attempts yield nothing.  Exceptions from either
attempt never propagate: the function is total with an `Option` result. -/
theorem getThread_resolution (env : Env) (threadId : String) :
    (∀ t, env.getThreadById threadId = Except.ok (some t) →
      getThread env threadId = some t) ∧
    (∀ ts, (env.getThreadById threadId = Except.ok none ∨
        ∃ e, env.getThreadById threadId = Except.error e) →
      env.search ("thread:" ++ threadId) = Except.ok ts →
      getThread env threadId = ts.head?) ∧
    ((env.getThreadById threadId = Except.ok none ∨
        ∃ e, env.getThreadById threadId = Except.error e) →
      (env.search ("thread:" ++ threadId) = Except.ok [] ∨
        ∃ e, env.search ("thread:" ++ threadId) = Except.error e) →
      getThread env threadId = none) := by
  refine ⟨?_, ?_, ?_⟩
  · intro t ht
    unfold getThread
    rw [ht]
  · intro ts hdir hs
    unfold getThread
    rcases hdir with hd | ⟨e, hd⟩ <;> rw [hd, hs]
  · intro hdir hsearch
    unfold getThread
    rcases hdir with hd | ⟨e, hd⟩ <;>
      rcases hsearch with hs | ⟨e2, hs⟩ <;> rw [hd, hs] <;> rfl

/-- A concrete message whose raw content yields a Message-ID and no
References header. -/
def messageSimple : MessageM where
  rawContent := Except.ok "Message-ID: <m1@x.com>\r\nSubject: Hi\r\n"
  gmailId := Except.ok "gm1"
  msgDate := Except.ok "2026-01-01"

/-- A concrete thread containing `messageSimple` (used as witness input). -/
def threadSimple : ThreadM where
  messages := Except.ok [messageSimple]
  firstMessageSubject := Except.ok "Hi"
  labels := Except.ok []

/-- Environment whose direct lookup returns `threadSimple` for `"tid1"`. -/
def envDirectHit : Env where
  getThreadById := fun tid =>
    if tid = "tid1" then Except.ok (some threadSimple) else Except.ok none
  search := fun _ => Except.ok []
  sendEmailResult := Except.ok ()
  draftSendResult := Except.ok ()
  newThreadIdResult := Except.ok "THREAD-NEW"
  newThreadSubjectResult := Except.ok "Status update"
  getFails := fun _ => none
  setFails := fun _ => none
  delFails := fun _ => none
  nowISO := "2026-01-01T00:00:00.000Z"

/-- Witness for C8 at concrete environments: a direct hit is returned as-is,
and when both attempts yield nothing the result is `null`. -/
theorem getThread_resolution_witness :
    getThread envDirectHit "tid1" = some threadSimple ∧
    getThread envOk "tid1" = none :=
  ⟨(getThread_resolution envDirectHit "tid1").1 threadSimple rfl,
   (getThread_resolution envOk "tid1").2.2 (Or.inl rfl) (Or.inl rfl)⟩

/-! C6: the new-conversation path and the primary key. -/

/-- Witness input: an environment whose draft-send raises. -/
def envDraftFail : Env :=
  { envOk with draftSendResult := Except.error "Service invoked too many times" }

/-- Input for the C6 counterexample: an environment in which everything
succeeds except the post-write subject read on source line 215. -/
def envSubjFail : Env :=
  { envOk with newThreadSubjectResult := Except.error "Subject read failed" }

/-- C6 counterexample: when the `newThread.getFirstMessageSubject()` call in
the log template on source line 215 raises — after the primary key has been
written — `createNewThread` returns `false` with the primary persisted
identifier already overwritten by the new conversation identifier, so
"returns false and the primary persisted identifier is unchanged" fails. -/
theorem createNewThread_false_key_overwritten :
    (createNewThread envSubjFail cfgBasic "" {}
        ⟨[("emailThreadId", "T-old")], []⟩).1 = false ∧
    Store.lookup (createNewThread envSubjFail cfgBasic "" {}
        ⟨[("emailThreadId", "T-old")], []⟩).2.store "emailThreadId"
      = some "THREAD-NEW" ∧
    Store.lookup [("emailThreadId", "T-old")] "emailThreadId" = some "T-old" ∧
    (some "THREAD-NEW" : Option String) ≠ some "T-old" :=
  ⟨rfl, rfl, rfl, by decide⟩

/-- C6 amended: on the new-conversation path, a `false` return means the
primary persisted identifier is unchanged, except in one case: when the
post-write diagnostic subject read (source line 215) raised, in which case
the key already holds the new conversation identifier.  A raising draft-send
returns `false` with the key unchanged, and a `true` return means the
draft-send and the thread-id read succeeded and the key holds the new
conversation identifier — the key is written only after the send has
completed successfully. -/
theorem createNewThread_primary_key (env : Env) (cfg : Config)
    (htmlBody : String) (options : EmailOptions) (w : World) :
    ((createNewThread env cfg htmlBody options w).1 = false →
      Store.lookup (createNewThread env cfg htmlBody options w).2.store
          cfg.threadIdProperty
        = Store.lookup w.store cfg.threadIdProperty ∨
      (∃ e, env.newThreadSubjectResult = Except.error e) ∧
      ∃ ntid, env.newThreadIdResult = Except.ok ntid ∧
        Store.lookup (createNewThread env cfg htmlBody options w).2.store
            cfg.threadIdProperty
          = some ntid) ∧
    (∀ e, env.draftSendResult = Except.error e →
      (createNewThread env cfg htmlBody options w).1 = false ∧
      Store.lookup (createNewThread env cfg htmlBody options w).2.store
          cfg.threadIdProperty
        = Store.lookup w.store cfg.threadIdProperty) ∧
    ((createNewThread env cfg htmlBody options w).1 = true →
      env.draftSendResult = Except.ok () ∧
      ∃ ntid, env.newThreadIdResult = Except.ok ntid ∧
        Store.lookup (createNewThread env cfg htmlBody options w).2.store
            cfg.threadIdProperty
          = some ntid) := by
  have hprev : ("previousThreadId_" ++ cfg.threadIdProperty) ≠
      cfg.threadIdProperty :=
    append_ne_right _ _ (by decide)
  cases hget : env.getFails cfg.threadIdProperty with
  | some e0 =>
    have hrun : createNewThread env cfg htmlBody options w = (false, w) := by
      unfold createNewThread storeGet
      rw [hget]
    rw [hrun]
    exact ⟨fun _ => Or.inl rfl, fun e' _ => ⟨rfl, rfl⟩,
      fun h1 => Bool.noConfusion h1⟩
  | none =>
    cases ht : truthy (Store.lookup w.store cfg.threadIdProperty) with
    | true =>
      cases hsf : env.setFails ("previousThreadId_" ++ cfg.threadIdProperty) with
      | some e0 =>
        have hrun : createNewThread env cfg htmlBody options w = (false, w) := by
          unfold createNewThread storeGet storeSet
          simp only [hget, ht, hsf, if_true]
        rw [hrun]
        exact ⟨fun _ => Or.inl rfl, fun e' _ => ⟨rfl, rfl⟩,
          fun h1 => Bool.noConfusion h1⟩
      | none =>
        cases hd : env.draftSendResult with
        | error e0 =>
          have hb : (createNewThread env cfg htmlBody options w).1 = false := by
            unfold createNewThread storeGet storeSet
            simp only [hget, ht, hsf, hd, if_true]
          have hst : (createNewThread env cfg htmlBody options w).2.store =
              Store.set w.store ("previousThreadId_" ++ cfg.threadIdProperty)
                ((Store.lookup w.store cfg.threadIdProperty).getD "") := by
            unfold createNewThread storeGet storeSet
            simp only [hget, ht, hsf, hd, if_true]
          have hlk : Store.lookup
              (createNewThread env cfg htmlBody options w).2.store
              cfg.threadIdProperty
              = Store.lookup w.store cfg.threadIdProperty := by
            rw [hst]
            exact Store.lookup_set_ne _ _ _ _ (Ne.symm hprev)
          exact ⟨fun _ => Or.inl hlk, fun e' _ => ⟨hb, hlk⟩,
            fun h1 => Bool.noConfusion (hb.symm.trans h1)⟩
        | ok u =>
          cases u
          cases hn : env.newThreadIdResult with
          | error e0 =>
            have hb : (createNewThread env cfg htmlBody options w).1
                = false := by
              unfold createNewThread storeGet storeSet
              simp only [hget, ht, hsf, hd, hn, if_true]
            have hst : (createNewThread env cfg htmlBody options w).2.store =
                Store.set w.store ("previousThreadId_" ++ cfg.threadIdProperty)
                  ((Store.lookup w.store cfg.threadIdProperty).getD "") := by
              unfold createNewThread storeGet storeSet
              simp only [hget, ht, hsf, hd, hn, if_true]
            have hlk : Store.lookup
                (createNewThread env cfg htmlBody options w).2.store
                cfg.threadIdProperty
                = Store.lookup w.store cfg.threadIdProperty := by
              rw [hst]
              exact Store.lookup_set_ne _ _ _ _ (Ne.symm hprev)
            exact ⟨fun _ => Or.inl hlk,
              fun e' he' => Except.noConfusion he',
              fun h1 => Bool.noConfusion (hb.symm.trans h1)⟩
          | ok ntid =>
            cases hsk : env.setFails cfg.threadIdProperty with
            | some e0 =>
              have hb : (createNewThread env cfg htmlBody options w).1
                  = false := by
                unfold createNewThread storeGet storeSet
                simp only [hget, ht, hsf, hd, hn, hsk, if_true]
              have hst : (createNewThread env cfg htmlBody options w).2.store =
                  Store.set w.store
                    ("previousThreadId_" ++ cfg.threadIdProperty)
                    ((Store.lookup w.store cfg.threadIdProperty).getD "") := by
                unfold createNewThread storeGet storeSet
                simp only [hget, ht, hsf, hd, hn, hsk, if_true]
              have hlk : Store.lookup
                  (createNewThread env cfg htmlBody options w).2.store
                  cfg.threadIdProperty
                  = Store.lookup w.store cfg.threadIdProperty := by
                rw [hst]
                exact Store.lookup_set_ne _ _ _ _ (Ne.symm hprev)
              exact ⟨fun _ => Or.inl hlk,
                fun e' he' => Except.noConfusion he',
                fun h1 => Bool.noConfusion (hb.symm.trans h1)⟩
            | none =>
              cases hsub : env.newThreadSubjectResult with
              | error e0 =>
                have hb : (createNewThread env cfg htmlBody options w).1
                    = false := by
                  unfold createNewThread storeGet storeSet
                  simp only [hget, ht, hsf, hd, hn, hsk, hsub, if_true]
                have hst : (createNewThread env cfg htmlBody
                    options w).2.store =
                    Store.set (Store.set w.store
                      ("previousThreadId_" ++ cfg.threadIdProperty)
                      ((Store.lookup w.store cfg.threadIdProperty).getD ""))
                      cfg.threadIdProperty ntid := by
                  unfold createNewThread storeGet storeSet
                  simp only [hget, ht, hsf, hd, hn, hsk, hsub, if_true]
                have hlk : Store.lookup
                    (createNewThread env cfg htmlBody options w).2.store
                    cfg.threadIdProperty = some ntid := by
                  rw [hst]
                  exact Store.lookup_set_self _ _ _
                exact ⟨fun _ => Or.inr ⟨⟨e0, rfl⟩, ntid, rfl, hlk⟩,
                  fun e' he' => Except.noConfusion he',
                  fun h1 => Bool.noConfusion (hb.symm.trans h1)⟩
              | ok s0 =>
                have hb : (createNewThread env cfg htmlBody options w).1
                    = true := by
                  unfold createNewThread storeGet storeSet
                  simp only [hget, ht, hsf, hd, hn, hsk, hsub, if_true]
                have hst : (createNewThread env cfg htmlBody
                    options w).2.store =
                    Store.set (Store.set w.store
                      ("previousThreadId_" ++ cfg.threadIdProperty)
                      ((Store.lookup w.store cfg.threadIdProperty).getD ""))
                      cfg.threadIdProperty ntid := by
                  unfold createNewThread storeGet storeSet
                  simp only [hget, ht, hsf, hd, hn, hsk, hsub, if_true]
                have hlk : Store.lookup
                    (createNewThread env cfg htmlBody options w).2.store
                    cfg.threadIdProperty = some ntid := by
                  rw [hst]
                  exact Store.lookup_set_self _ _ _
                exact ⟨fun h1 => Bool.noConfusion (hb.symm.trans h1),
                  fun e' he' => Except.noConfusion he',
                  fun _ => ⟨rfl, ntid, rfl, hlk⟩⟩
    | false =>
      cases hd : env.draftSendResult with
      | error e0 =>
        have hb : (createNewThread env cfg htmlBody options w).1 = false := by
          unfold createNewThread storeGet storeSet
          simp only [hget, ht, hd, Bool.false_eq_true, if_false]
        have hst : (createNewThread env cfg htmlBody options w).2.store
            = w.store := by
          unfold createNewThread storeGet storeSet
          simp only [hget, ht, hd, Bool.false_eq_true, if_false]
        have hlk : Store.lookup
            (createNewThread env cfg htmlBody options w).2.store
            cfg.threadIdProperty
            = Store.lookup w.store cfg.threadIdProperty := by
          rw [hst]
        exact ⟨fun _ => Or.inl hlk, fun e' _ => ⟨hb, hlk⟩,
          fun h1 => Bool.noConfusion (hb.symm.trans h1)⟩
      | ok u =>
        cases u
        cases hn : env.newThreadIdResult with
        | error e0 =>
          have hb : (createNewThread env cfg htmlBody options w).1 = false := by
            unfold createNewThread storeGet storeSet
            simp only [hget, ht, hd, hn, Bool.false_eq_true, if_false]
          have hst : (createNewThread env cfg htmlBody options w).2.store
              = w.store := by
            unfold createNewThread storeGet storeSet
            simp only [hget, ht, hd, hn, Bool.false_eq_true, if_false]
          have hlk : Store.lookup
              (createNewThread env cfg htmlBody options w).2.store
              cfg.threadIdProperty
              = Store.lookup w.store cfg.threadIdProperty := by
            rw [hst]
          exact ⟨fun _ => Or.inl hlk,
            fun e' he' => Except.noConfusion he',
            fun h1 => Bool.noConfusion (hb.symm.trans h1)⟩
        | ok ntid =>
          cases hsk : env.setFails cfg.threadIdProperty with
          | some e0 =>
            have hb : (createNewThread env cfg htmlBody options w).1
                = false := by
              unfold createNewThread storeGet storeSet
              simp only [hget, ht, hd, hn, hsk, Bool.false_eq_true, if_false]
            have hst : (createNewThread env cfg htmlBody options w).2.store
                = w.store := by
              unfold createNewThread storeGet storeSet
              simp only [hget, ht, hd, hn, hsk, Bool.false_eq_true, if_false]
            have hlk : Store.lookup
                (createNewThread env cfg htmlBody options w).2.store
                cfg.threadIdProperty
                = Store.lookup w.store cfg.threadIdProperty := by
              rw [hst]
            exact ⟨fun _ => Or.inl hlk,
              fun e' he' => Except.noConfusion he',
              fun h1 => Bool.noConfusion (hb.symm.trans h1)⟩
          | none =>
            cases hsub : env.newThreadSubjectResult with
            | error e0 =>
              have hb : (createNewThread env cfg htmlBody options w).1
                  = false := by
                unfold createNewThread storeGet storeSet
                simp only [hget, ht, hd, hn, hsk, hsub, Bool.false_eq_true,
                  if_false]
              have hst : (createNewThread env cfg htmlBody options w).2.store
                  = Store.set w.store cfg.threadIdProperty ntid := by
                unfold createNewThread storeGet storeSet
                simp only [hget, ht, hd, hn, hsk, hsub, Bool.false_eq_true,
                  if_false]
              have hlk : Store.lookup
                  (createNewThread env cfg htmlBody options w).2.store
                  cfg.threadIdProperty = some ntid := by
                rw [hst]
                exact Store.lookup_set_self _ _ _
              exact ⟨fun _ => Or.inr ⟨⟨e0, rfl⟩, ntid, rfl, hlk⟩,
                fun e' he' => Except.noConfusion he',
                fun h1 => Bool.noConfusion (hb.symm.trans h1)⟩
            | ok s0 =>
              have hb : (createNewThread env cfg htmlBody options w).1
                  = true := by
                unfold createNewThread storeGet storeSet
                simp only [hget, ht, hd, hn, hsk, hsub, Bool.false_eq_true,
                  if_false]
              have hst : (createNewThread env cfg htmlBody options w).2.store
                  = Store.set w.store cfg.threadIdProperty ntid := by
                unfold createNewThread storeGet storeSet
                simp only [hget, ht, hd, hn, hsk, hsub, Bool.false_eq_true,
                  if_false]
              have hlk : Store.lookup
                  (createNewThread env cfg htmlBody options w).2.store
                  cfg.threadIdProperty = some ntid := by
                rw [hst]
                exact Store.lookup_set_self _ _ _
              exact ⟨fun h1 => Bool.noConfusion (hb.symm.trans h1),
                fun e' he' => Except.noConfusion he',
                fun _ => ⟨rfl, ntid, rfl, hlk⟩⟩

/-- Witness for the amended C6 theorem: with a raising draft-send the call
reports failure and the primary key keeps its old value; with a reliable
environment the key ends up holding the new conversation identifier. -/
theorem createNewThread_primary_key_witness :
    ((createNewThread envDraftFail cfgBasic "" {}
        ⟨[("emailThreadId", "T1")], []⟩).1 = false ∧
      Store.lookup (createNewThread envDraftFail cfgBasic "" {}
          ⟨[("emailThreadId", "T1")], []⟩).2.store "emailThreadId"
        = Store.lookup [("emailThreadId", "T1")] "emailThreadId") ∧
    Store.lookup (createNewThread envOk cfgBasic "" {} ⟨[], []⟩).2.store
        "emailThreadId" = some "THREAD-NEW" := by
  refine ⟨(createNewThread_primary_key envDraftFail cfgBasic "" {} _).2.1
      "Service invoked too many times" rfl, ?_⟩
  obtain ⟨_, ntid, hn, hl⟩ :=
    (createNewThread_primary_key envOk cfgBasic "" {} ⟨[], []⟩).2.2 rfl
  have hid : "THREAD-NEW" = ntid := by
    injection (rfl : envOk.newThreadIdResult =
      Except.ok "THREAD-NEW").symm.trans hn
  rw [← hid] at hl
  exact hl

/-! C3: fallback when a persisted identifier resolves to no conversation. -/

/-- C3: when a persisted identifier exists but both the provider direct
lookup and the fallback search yield no conversation for it, and the store
and the new-conversation dispatch operate normally, `sendThreadedEmail`
creates a new conversation (a send with the configured subject and recipient
and no threading headers), overwrites the persisted identifier under the
configured key with the new conversation identifier, and does not raise: it
returns a boolean, which is `true` whenever the post-write diagnostic read
of the new thread subject (source line 215) also succeeds. -/
theorem sendThreadedEmail_fallback_on_missing (env : Env) (cfg : Config)
    (htmlBody : String) (options : EmailOptions) (w : World) (v ntid : String)
    (hget : ∀ k, env.getFails k = none)
    (hset : ∀ k, env.setFails k = none)
    (hstored : Store.lookup w.store cfg.threadIdProperty = some v)
    (hv : v ≠ "")
    (hdirect : env.getThreadById v = Except.ok none ∨
      ∃ e, env.getThreadById v = Except.error e)
    (hsearch : env.search ("thread:" ++ v) = Except.ok [] ∨
      ∃ e, env.search ("thread:" ++ v) = Except.error e)
    (hdraft : env.draftSendResult = Except.ok ())
    (hnew : env.newThreadIdResult = Except.ok ntid) :
    (∃ b : Bool, (sendThreadedEmail env cfg htmlBody options w).1 =
      Except.ok b) ∧
    Store.lookup (sendThreadedEmail env cfg htmlBody options w).2.store
        cfg.threadIdProperty = some ntid ∧
    (∃ sr : SendRec,
      (sendThreadedEmail env cfg htmlBody options w).2.sent = w.sent ++ [sr] ∧
      sr.subject = cfg.emailSubject ∧ sr.recipient = cfg.recipientEmail ∧
      sr.inReplyTo = none ∧ sr.references = none) ∧
    (∀ s, env.newThreadSubjectResult = Except.ok s →
      (sendThreadedEmail env cfg htmlBody options w).1 = Except.ok true) := by
  have hgt : getThread env v = none := by
    unfold getThread
    rcases hdirect with hd | ⟨e, hd⟩ <;> rcases hsearch with hs | ⟨e2, hs⟩ <;>
      rw [hd, hs] <;> rfl
  have hreply : replyToExistingThread env cfg v htmlBody options w =
      (false, w) := by
    unfold replyToExistingThread
    rw [hgt]
  have hrun : sendThreadedEmail env cfg htmlBody options w =
      (Except.ok (createNewThread env cfg htmlBody options w).1,
       (createNewThread env cfg htmlBody options w).2) := by
    unfold sendThreadedEmail storeGet
    simp only [hget, hstored, truthy_some_ne v hv, Option.getD_some, hreply,
      if_true, Bool.false_eq_true, if_false]
  cases hsubj : env.newThreadSubjectResult with
  | error e0 =>
    have hcreate : createNewThread env cfg htmlBody options w =
        (false,
          { store := Store.set
              (Store.set w.store
                ("previousThreadId_" ++ cfg.threadIdProperty) v)
              cfg.threadIdProperty ntid,
            sent := w.sent ++ [{
              recipient := cfg.recipientEmail
              subject := cfg.emailSubject
              body := (if !(truthy options.plainBody) && !(htmlBody == "")
                then some (htmlToPlainText htmlBody)
                else options.plainBody).getD ""
              htmlBody := htmlBody
              plainBody := if !(truthy options.plainBody) && !(htmlBody == "")
                then some (htmlToPlainText htmlBody) else options.plainBody
              cc := options.cc
              bcc := options.bcc
              inReplyTo := none
              references := none }] }) := by
      unfold createNewThread storeGet storeSet
      simp only [hget, hset, hstored, hdraft, hnew, hsubj,
        truthy_some_ne v hv, Option.getD_some, if_true, Bool.false_eq_true,
        if_false]
    rw [hrun, hcreate]
    exact ⟨⟨false, rfl⟩, Store.lookup_set_self _ _ _,
      ⟨_, rfl, rfl, rfl, rfl, rfl⟩, fun s hs => Except.noConfusion hs⟩
  | ok s0 =>
    have hcreate : createNewThread env cfg htmlBody options w =
        (true,
          { store := Store.set
              (Store.set w.store
                ("previousThreadId_" ++ cfg.threadIdProperty) v)
              cfg.threadIdProperty ntid,
            sent := w.sent ++ [{
              recipient := cfg.recipientEmail
              subject := cfg.emailSubject
              body := (if !(truthy options.plainBody) && !(htmlBody == "")
                then some (htmlToPlainText htmlBody)
                else options.plainBody).getD ""
              htmlBody := htmlBody
              plainBody := if !(truthy options.plainBody) && !(htmlBody == "")
                then some (htmlToPlainText htmlBody) else options.plainBody
              cc := options.cc
              bcc := options.bcc
              inReplyTo := none
              references := none }] }) := by
      unfold createNewThread storeGet storeSet
      simp only [hget, hset, hstored, hdraft, hnew, hsubj,
        truthy_some_ne v hv, Option.getD_some, if_true, Bool.false_eq_true,
        if_false]
    rw [hrun, hcreate]
    exact ⟨⟨true, rfl⟩, Store.lookup_set_self _ _ _,
      ⟨_, rfl, rfl, rfl, rfl, rfl⟩, fun s hs => rfl⟩

/-- Witness for C3: concrete store holding `"T-stale"`, provider that cannot
resolve it, reliable send; the identifier is replaced by `"THREAD-NEW"` and
the run reports success. -/
theorem sendThreadedEmail_fallback_witness :
    (sendThreadedEmail envOk cfgBasic "" {}
        ⟨[("emailThreadId", "T-stale")], []⟩).1 = Except.ok true ∧
    Store.lookup (sendThreadedEmail envOk cfgBasic "" {}
        ⟨[("emailThreadId", "T-stale")], []⟩).2.store "emailThreadId"
      = some "THREAD-NEW" := by
  obtain ⟨_, h2, _, h4⟩ := sendThreadedEmail_fallback_on_missing envOk cfgBasic
    "" {} ⟨[("emailThreadId", "T-stale")], []⟩ "T-stale" "THREAD-NEW"
    (fun _ => rfl) (fun _ => rfl) rfl (by decide) (Or.inl rfl) (Or.inl rfl)
    rfl rfl
  exact ⟨h4 "Status update" rfl, h2⟩

/-! C4: the outgoing threading headers on the reply path. -/

/-- C4: for every reply whose first message yields Message-ID `c` (nonempty,
as both extraction methods guarantee) and References chain `refsOpt`, and
whose dispatch succeeds, the reply is sent with `In-Reply-To` equal to `c`
wrapped in exactly one pair of angle brackets, and `References` equal to the
prior chain followed by a single space and `<c>` when a nonempty chain is
present, and exactly `<c>` when no chain was present. -/
theorem replyToExistingThread_headers (env : Env) (cfg : Config)
    (threadId htmlBody : String) (options : EmailOptions) (w : World)
    (t : ThreadM) (m : MessageM) (ms : List MessageM) (subj c : String)
    (refsOpt : Option String)
    (hthread : env.getThreadById threadId = Except.ok (some t))
    (hmsgs : t.messages = Except.ok (m :: ms))
    (hsubj : t.firstMessageSubject = Except.ok subj)
    (hinfo : extractThreadingHeaders (some m) = ⟨some c, refsOpt⟩)
    (hc : c ≠ "")
    (hsend : env.sendEmailResult = Except.ok ()) :
    ∃ sr : SendRec,
      replyToExistingThread env cfg threadId htmlBody options w =
        (true, { w with sent := w.sent ++ [sr] }) ∧
      sr.inReplyTo = some ("<" ++ c ++ ">") ∧
      (∀ r, refsOpt = some r → r ≠ "" →
        sr.references = some (r ++ " " ++ "<" ++ c ++ ">")) ∧
      ((refsOpt = none ∨ refsOpt = some "") →
        sr.references = some ("<" ++ c ++ ">")) ∧
      (c.data.count '<' = 0 → c.data.count '>' = 0 →
        ("<" ++ c ++ ">").data.count '<' = 1 ∧
        ("<" ++ c ++ ">").data.count '>' = 1) := by
  have hgt : getThread env threadId = some t := by
    unfold getThread
    rw [hthread]
  have hrun : replyToExistingThread env cfg threadId htmlBody options w =
      (true, { w with sent := w.sent ++ [{
        recipient := cfg.recipientEmail
        subject := formatReplySubject subj
        body := (if !(truthy options.plainBody) && !(htmlBody == "")
          then some (htmlToPlainText htmlBody) else options.plainBody).getD ""
        htmlBody := htmlBody
        plainBody := if !(truthy options.plainBody) && !(htmlBody == "")
          then some (htmlToPlainText htmlBody) else options.plainBody
        cc := options.cc
        bcc := options.bcc
        inReplyTo := some ("<" ++ c ++ ">")
        references := some (buildReferencesHeader ⟨some c, refsOpt⟩ (m :: ms)) }] }) := by
    unfold replyToExistingThread
    simp only [hgt, hmsgs, hsubj, List.head?_cons, hinfo, hsend,
      truthy_some_ne c hc, Option.getD_some, if_true, Bool.false_eq_true,
      if_false]
  refine ⟨_, hrun, rfl, ?_, ?_, ?_⟩
  · intro r hr hrne
    subst hr
    show some (buildReferencesHeader ⟨some c, some r⟩ (m :: ms)) = _
    unfold buildReferencesHeader
    simp only [truthy_some_ne r hrne, truthy_some_ne c hc, Option.getD_some,
      if_true, if_pos hrne]
  · intro hnone
    rcases hnone with h | h <;> subst h
    · show some (buildReferencesHeader ⟨some c, none⟩ (m :: ms)) = _
      unfold buildReferencesHeader
      simp only [truthy_none, truthy_some_ne c hc, Option.getD_some,
        Bool.false_eq_true, if_false, if_true]
      rw [if_neg (by simp)]
      rfl
    · show some (buildReferencesHeader ⟨some c, some ""⟩ (m :: ms)) = _
      unfold buildReferencesHeader
      dsimp only
      simp only [show truthy (some "") = false from rfl, Bool.false_eq_true,
        if_false, truthy_some_ne c hc, if_true, Option.getD_some]
      rw [if_neg (by simp)]
      rfl
  · intro h1 h2
    constructor <;>
      simp [data_append, List.count_append, List.count_cons, h1, h2,
        List.count_nil]

/-- Witness input: a thread whose first message carries both a References
chain and a Message-ID. -/
def messageWithRefs : MessageM where
  rawContent := Except.ok
    "References: <a> <b>\r\nMessage-ID: <c1@x.com>\r\nSubject: Hi\r\n"
  gmailId := Except.ok "gm2"
  msgDate := Except.ok "2026-01-02"

/-- Witness input: the thread containing `messageWithRefs`. -/
def threadWithRefs : ThreadM where
  messages := Except.ok [messageWithRefs]
  firstMessageSubject := Except.ok "Hi"
  labels := Except.ok []

/-- Witness input: environment resolving `"tid2"` to `threadWithRefs`. -/
def envWithRefs : Env :=
  { envOk with getThreadById := fun tid =>
      if tid = "tid2" then Except.ok (some threadWithRefs) else Except.ok none }

/-- Witness for C4 at concrete inputs, covering both spec scenarios: with a
prior chain `<a> <b>` and Message-ID `c1@x.com` the reply carries
`References: <a> <b> <c1@x.com>`; with no prior chain and Message-ID
`m1@x.com` it carries exactly `In-Reply-To: <m1@x.com>` and
`References: <m1@x.com>`. -/
theorem replyToExistingThread_headers_witness :
    (∃ sr : SendRec,
      replyToExistingThread envWithRefs cfgBasic "tid2" "" {} ⟨[], []⟩ =
        (true, { store := [], sent := [sr] }) ∧
      sr.inReplyTo = some "<c1@x.com>" ∧
      sr.references = some "<a> <b> <c1@x.com>") ∧
    (∃ sr : SendRec,
      replyToExistingThread envDirectHit cfgBasic "tid1" "" {} ⟨[], []⟩ =
        (true, { store := [], sent := [sr] }) ∧
      sr.inReplyTo = some "<m1@x.com>" ∧
      sr.references = some "<m1@x.com>") := by
  constructor
  · obtain ⟨sr, h1, h2, h3, _, _⟩ := replyToExistingThread_headers envWithRefs
      cfgBasic "tid2" "" {} ⟨[], []⟩ threadWithRefs messageWithRefs [] "Hi"
      "c1@x.com" (some "<a> <b>") rfl rfl rfl (by decide) (by decide) rfl
    refine ⟨sr, h1, ?_, ?_⟩
    · rw [h2]; rfl
    · rw [h3 "<a> <b>" rfl (by decide)]; rfl
  · obtain ⟨sr, h1, h2, _, h4, _⟩ := replyToExistingThread_headers envDirectHit
      cfgBasic "tid1" "" {} ⟨[], []⟩ threadSimple messageSimple [] "Hi"
      "m1@x.com" none rfl rfl rfl (by decide) (by decide) rfl
    refine ⟨sr, h1, ?_, ?_⟩
    · rw [h2]; rfl
    · rw [h4 (Or.inl rfl)]; rfl

/-! C9: reset and the diagnostic projection. -/

/-- C9: with a normally operating store, when a current identifier `v` is
persisted under the configured key, running `resetThreading` and then
`getThreadInfo` yields an info record whose `currentThreadId` is `null` and
whose `archivedThreadId` equals `v`; and `resetThreading` with no existing
identifier changes no stored key. -/
theorem resetThreading_roundTrip (env : Env) (cfg : Config) (st : Store)
    (v : String)
    (hget : ∀ k, env.getFails k = none)
    (hset : ∀ k, env.setFails k = none)
    (hdel : ∀ k, env.delFails k = none)
    (hcur : Store.lookup st cfg.threadIdProperty = some v)
    (hv : v ≠ "") :
    (∃ st' info,
      resetThreading env cfg st = (Except.ok (), st') ∧
      getThreadInfo env cfg st' = Except.ok info ∧
      info.currentThreadId = none ∧
      info.archivedThreadId = some v) ∧
    (∀ st0, Store.lookup st0 cfg.threadIdProperty = none →
      resetThreading env cfg st0 = (Except.ok (), st0)) := by
  constructor
  · have hreset : resetThreading env cfg st = (Except.ok (),
        Store.del (Store.set (Store.set st
            ("archived_" ++ cfg.threadIdProperty) v)
          ("archived_date_" ++ cfg.threadIdProperty) env.nowISO)
          cfg.threadIdProperty) := by
      unfold resetThreading storeGet storeSet storeDel
      simp only [hget, hset, hdel, hcur, truthy_some_ne v hv,
        Option.getD_some, if_true]
    have hl1 : Store.lookup
        (Store.del (Store.set (Store.set st
            ("archived_" ++ cfg.threadIdProperty) v)
          ("archived_date_" ++ cfg.threadIdProperty) env.nowISO)
          cfg.threadIdProperty)
        cfg.threadIdProperty = none := Store.lookup_del_self _ _
    have hl3 : Store.lookup
        (Store.del (Store.set (Store.set st
            ("archived_" ++ cfg.threadIdProperty) v)
          ("archived_date_" ++ cfg.threadIdProperty) env.nowISO)
          cfg.threadIdProperty)
        ("archived_" ++ cfg.threadIdProperty) = some v := by
      rw [Store.lookup_del_ne _ _ _ (append_ne_right _ _ (by decide)),
        Store.lookup_set_ne _ _ _ _
          (append_ne_append_right "archived_" "archived_date_" _ (by decide)),
        Store.lookup_set_self]
    have hinfo : getThreadInfo env cfg
        (Store.del (Store.set (Store.set st
            ("archived_" ++ cfg.threadIdProperty) v)
          ("archived_date_" ++ cfg.threadIdProperty) env.nowISO)
          cfg.threadIdProperty) = Except.ok {
        currentThreadId := none
        previousThreadId :=
          if truthy (Store.lookup
              (Store.del (Store.set (Store.set st
                  ("archived_" ++ cfg.threadIdProperty) v)
                ("archived_date_" ++ cfg.threadIdProperty) env.nowISO)
                cfg.threadIdProperty)
              ("previousThreadId_" ++ cfg.threadIdProperty)) then
            Store.lookup
              (Store.del (Store.set (Store.set st
                  ("archived_" ++ cfg.threadIdProperty) v)
                ("archived_date_" ++ cfg.threadIdProperty) env.nowISO)
                cfg.threadIdProperty)
              ("previousThreadId_" ++ cfg.threadIdProperty)
          else none
        archivedThreadId := some v
        threadDetails := .nullDetails } := by
      unfold getThreadInfo storeGet
      simp only [hget, hl1, hl3, truthy_none, Bool.false_eq_true, if_false,
        truthy_some_ne v hv, if_true]
    exact ⟨_, _, hreset, hinfo, rfl, rfl⟩
  · intro st0 h0
    unfold resetThreading storeGet storeDel
    simp only [hget, hdel, h0, truthy_none, Bool.false_eq_true, if_false]
    rw [Store.del_eq_self st0 _ h0]

/-- Witness for C9 at a concrete store holding `"T1"`: after reset the
current identifier is gone and `"T1"` is in the archived slot; resetting an
empty store leaves it empty. -/
theorem resetThreading_roundTrip_witness :
    (∃ st' info,
      resetThreading envOk cfgBasic [("emailThreadId", "T1")] =
        (Except.ok (), st') ∧
      getThreadInfo envOk cfgBasic st' = Except.ok info ∧
      info.currentThreadId = none ∧
      info.archivedThreadId = some "T1") ∧
    resetThreading envOk cfgBasic [] = (Except.ok (), []) := by
  obtain ⟨h1, h2⟩ := resetThreading_roundTrip envOk cfgBasic
    [("emailThreadId", "T1")] "T1" (fun _ => rfl) (fun _ => rfl)
    (fun _ => rfl) rfl (by decide)
  exact ⟨h1, h2 [] rfl⟩

end EmailThreading
